import Mathlib

/-!
# net-clipboard: a shallow embedding of `main.go`

Go strings are byte sequences; a byte is modelled as a natural number and a
string as a list of bytes (`Str`).  Every function of `main.go` that the
properties below talk about is translated here under its own name; the
library functions it calls (`strings`, `regexp`, `net/url`, `html`, `net/http`,
`os`) are modelled by small executable definitions that follow the Go
standard library.
-/

namespace NetClipboard

/-- A Go string: a sequence of bytes. -/
abbrev Str := List Nat

/-- The bytes of an ASCII literal. -/
def str (s : String) : Str := s.data.map Char.toNat

/-! ## Configuration constants (`main.go`, lines 17-23) -/

/-- Path to save notes. -/
def savePath : Str := str "_tmp"

/-- Maximum length of note name. -/
def maxNoteLen : Nat := 64

/-! ## generateRandomID (`main.go`, lines 25-36) -/

/-- The alphabet `chars` of `generateRandomID`. -/
def chars : Str := str "234579abcdefghjkmnpqrstwxyz"

/-- The buffer after `bytes := make([]byte, 5); rand.Read(bytes)`: the buffer
starts as five zero bytes and the random source overwrites a prefix of it (all
five bytes when the read succeeds, fewer or none when it fails).  `src` is what
the random source delivers. -/
def randRead (src : List Nat) : List Nat :=
  ((src.map (· % 256)) ++ List.replicate 5 0).take 5

/-- The index expression `int(bytes[i]) % len(chars)`. -/
def charIndex (b : Nat) : Nat := b % chars.length

/-- One iteration of the loop body: `chars[int(bytes[i]) % len(chars)]`;
`none` is an index out of range (a run-time panic in Go). -/
def pickChar (b : Nat) : Option Nat := chars.get? (charIndex b)

/-- The loop `for i := 0; i < 5; i++ { bytes[i] = chars[...] }` over the buffer. -/
def replaceBytes : List Nat → Option Str
  | [] => some []
  | b :: t =>
    match pickChar b, replaceBytes t with
    | some c, some s => some (c :: s)
    | _, _ => none

/-- The function `generateRandomID`, given what the random source delivers. -/
def generateRandomID (src : List Nat) : Option Str :=
  replaceBytes (randRead src)

/-- Number of byte values `0..255` that the loop body maps to the symbol `c`. -/
def byteCount (c : Nat) : Nat :=
  ((List.range 256).filter (fun b => pickChar b == some c)).length


/-! ## regexp (the part of Go's `regexp` package that `noteIdRegexp` uses)

The text is matched byte by byte.  Go's matcher reads runes, and a byte
`≥ 0x80` is read as (part of) a rune `≥ 0x80`; a character class that lists
only ASCII ranges therefore accepts a rune exactly when it is a single byte in
one of the ranges, which is what the byte-wise matcher tests. -/

/-- Regular expressions: the operators that occur in `noteIdRegexp`. -/
inductive Regexp where
  /-- `^` without the multi-line flag: the beginning of the text. -/
  | beginText
  /-- `$` without the multi-line flag: the end of the text (not before a final newline). -/
  | endText
  /-- A bracket expression, as a list of inclusive ranges. -/
  | charClass (ranges : List (Nat × Nat))
  /-- One or more repetitions. -/
  | plus (r : Regexp)
  /-- Concatenation. -/
  | concat (r₁ r₂ : Regexp)

/-- A position in the text: whether it is the beginning of the text, and the
bytes that remain. -/
abbrev Pos := Bool × Str

/-- Membership of a byte in a bracket expression. -/
def inRanges (ranges : List (Nat × Nat)) (c : Nat) : Bool :=
  ranges.any (fun r => decide (r.1 ≤ c) && decide (c ≤ r.2))

/-- The positions reached from `ps` by applying `f` between 1 and `n` times. -/
def iterate (f : Pos → List Pos) : Nat → List Pos → List Pos
  | 0, _ => []
  | n + 1, ps => ps.flatMap f ++ iterate f n (ps.flatMap f)

/-- All positions at which a match of the expression that starts at `p` can end. -/
def Regexp.ends : Regexp → Pos → List Pos
  | .beginText, p => if p.1 then [p] else []
  | .endText, p => if p.2.isEmpty then [p] else []
  | .charClass rs, p =>
    match p.2 with
    | [] => []
    | c :: s => if inRanges rs c then [(false, s)] else []
  | .plus r, p => iterate r.ends (p.2.length + 1) [p]
  | .concat r₁ r₂, p => (r₁.ends p).flatMap r₂.ends

/-- The positions where a match may start: the beginning of the text and every
later position. -/
def startPositions (s : Str) : List Pos :=
  (true, s) :: s.tails.tail.map (fun t => (false, t))

/-- The function `regexp.MatchString` (unanchored search): the text contains a match. -/
def MatchString (re : Regexp) (s : Str) : Bool :=
  (startPositions s).any (fun p => !(re.ends p).isEmpty)

/-- The constant `noteIdRegexp`, the parsed form of `^[a-zA-Z0-9_-]+$`. -/
def noteIdRegexp : Regexp :=
  .concat .beginText
    (.concat
      (.plus (.charClass [('a'.toNat, 'z'.toNat), ('A'.toNat, 'Z'.toNat),
        ('0'.toNat, '9'.toNat), ('_'.toNat, '_'.toNat), ('-'.toNat, '-'.toNat)]))
      .endText)

/-! ## validNoteID (`main.go`, lines 38-46) -/

/-- The function `validNoteID`. -/
def validNoteID (noteID : Str) : Bool :=
  if noteID = [] || noteID.length > maxNoteLen then false
  else MatchString noteIdRegexp noteID

/-- The character class of the specification: `[A-Za-z0-9_-]`. -/
def isIdChar (c : Nat) : Prop :=
  ('A'.toNat ≤ c ∧ c ≤ 'Z'.toNat) ∨ ('a'.toNat ≤ c ∧ c ≤ 'z'.toNat) ∨
  ('0'.toNat ≤ c ∧ c ≤ '9'.toNat) ∨ c = '_'.toNat ∨ c = '-'.toNat

instance (c : Nat) : Decidable (isIdChar c) := by unfold isIdChar; infer_instance


/-! ## strings (the functions of Go's `strings` package that `main.go` calls) -/

/-- The function `strings.HasPrefix`. -/
def HasPrefix (s pre : Str) : Bool := pre.isPrefixOf s

/-- The function `strings.TrimPrefix`. -/
def TrimPrefix (s pre : Str) : Str :=
  if HasPrefix s pre then s.drop pre.length else s

/-- The function `strings.Contains`. -/
def Contains (s substr : Str) : Bool := s.tails.any (fun t => HasPrefix t substr)

/-- The scan of `strings.ReplaceAll` for a non-empty `old`: `skip` counts the
bytes of the occurrence just replaced that are still to be passed over; with
nothing to skip, an occurrence of `old` at the current byte is replaced by
`new` and the scan goes on behind it, otherwise the byte is copied. -/
def replaceScan (old new : Str) : Nat → Str → Str
  | _, [] => []
  | skip + 1, _ :: s => replaceScan old new skip s
  | 0, c :: s =>
    if HasPrefix (c :: s) old then new ++ replaceScan old new (old.length - 1) s
    else c :: replaceScan old new 0 s

/-- The function `strings.ReplaceAll` (non-empty `old`): the non-overlapping
occurrences of `old`, found from left to right, are replaced by `new`. -/
def ReplaceAll (s old new : Str) : Str := replaceScan old new 0 s

/-! ## cleanupFormData (`main.go`, lines 169-184) -/

/-- The function `cleanupFormData`. -/
def cleanupFormData (content : Str) : Str :=
  let content := if HasPrefix content (str "text=") then content.drop 5 else content
  let content := ReplaceAll content (str "%0A") (str "\n")
  let content := ReplaceAll content (str "%0D") (str "\r")
  let content := ReplaceAll content (str "%09") (str "\t")
  let content := ReplaceAll content (str "%20") (str " ")
  content

/-- The single left-to-right pass of the specification: each occurrence of
`%0A`, `%0D`, `%09`, `%20` becomes newline, carriage return, tab, space; every
other byte is copied.  (`37 = %`, `48 = 0`, `65 = A`, `68 = D`, `57 = 9`,
`50 = 2`; `10`, `13`, `9`, `32` are newline, carriage return, tab, space.) -/
def singlePass : Str → Str
  | 37 :: 48 :: 65 :: rest => 10 :: singlePass rest
  | 37 :: 48 :: 68 :: rest => 13 :: singlePass rest
  | 37 :: 48 :: 57 :: rest => 9 :: singlePass rest
  | 37 :: 50 :: 48 :: rest => 32 :: singlePass rest
  | c :: rest => c :: singlePass rest
  | [] => []

/-- The specification of `cleanupFormData`: remove one leading `text=`, then
make the single pass. -/
def cleanupSpec (c : Str) : Str :=
  singlePass (if str "text=" <+: c then c.drop 5 else c)

/-- The four literal substrings that the cleanup replaces. -/
def legacyEscapes : List Str := [str "%0A", str "%0D", str "%09", str "%20"]


/-! ## net/url (query unescaping and query parsing) -/

/-- The function `ishex` of `net/url`. -/
def ishex (c : Nat) : Bool :=
  (decide ('0'.toNat ≤ c) && decide (c ≤ '9'.toNat)) ||
  (decide ('a'.toNat ≤ c) && decide (c ≤ 'f'.toNat)) ||
  (decide ('A'.toNat ≤ c) && decide (c ≤ 'F'.toNat))

/-- The function `unhex` of `net/url`. -/
def unhex (c : Nat) : Nat :=
  if '0'.toNat ≤ c ∧ c ≤ '9'.toNat then c - '0'.toNat
  else if 'a'.toNat ≤ c ∧ c ≤ 'f'.toNat then c - 'a'.toNat + 10
  else if 'A'.toNat ≤ c ∧ c ≤ 'F'.toNat then c - 'A'.toNat + 10
  else 0

/-- The function `url.QueryUnescape`: `%XY` becomes the byte with hex digits
`XY`, `+` becomes a space, every other byte is kept; `none` is the error
returned for a `%` that is not followed by two hex digits.  (`37 = %`,
`43 = +`, `32` is the space.) -/
def QueryUnescape : Str → Option Str
  | [] => some []
  | 37 :: a :: b :: rest =>
    if ishex a && ishex b then (QueryUnescape rest).map (fun t => (unhex a * 16 + unhex b) :: t)
    else none
  | 37 :: _ => none
  | 43 :: rest => (QueryUnescape rest).map (fun t => 32 :: t)
  | c :: rest => (QueryUnescape rest).map (fun t => c :: t)

/-- The pieces of `s` between the occurrences of the byte `sep` (`strings.Split`
for a one-byte separator). -/
def splitOnByte (sep : Nat) : Str → List Str
  | [] => [[]]
  | c :: t =>
    if c = sep then [] :: splitOnByte sep t
    else
      match splitOnByte sep t with
      | [] => [[c]]
      | h :: r => (c :: h) :: r

/-- The function `strings.Cut` for a one-byte separator: the text before the
first separator and the text after it (empty when there is none). -/
def Cut (s : Str) (sep : Nat) : Str × Str :=
  (s.takeWhile (fun c => c != sep), (s.dropWhile (fun c => c != sep)).drop 1)

/-- Form values: the pairs of key and value in the order they were added. -/
abbrev Values := List (Str × Str)

/-- The method `Values.Get`: the first value of the key, or the empty string. -/
def Values.Get (v : Values) (key : Str) : Str :=
  match v.find? (fun kv => kv.1 == key) with
  | some kv => kv.2
  | none => []

/-- The loop of `url.ParseQuery` over the fields of the query: a field with a
`;` is an error, an empty field is skipped, a field whose key or value does not
unescape is an error, any other field adds its pair.  The result is the values
and whether an error is returned. -/
def parseFields : List Str → Values × Bool
  | [] => ([], false)
  | field :: fields =>
    let (m, err) := parseFields fields
    if field.contains ';'.toNat then (m, true)
    else if field = [] then (m, err)
    else
      match QueryUnescape (Cut field '='.toNat).1, QueryUnescape (Cut field '='.toNat).2 with
      | some key, some value => ((key, value) :: m, err)
      | _, _ => (m, true)

/-- The function `url.ParseQuery`: the query is cut at every `&`. -/
def ParseQuery (query : Str) : Values × Bool :=
  parseFields (splitOnByte '&'.toNat query)

/-! ## html -/

/-- The replacement that `html.EscapeString` makes for one byte. -/
def escapeByte (c : Nat) : Str :=
  if c = '&'.toNat then str "&amp;"
  else if c = '\''.toNat then str "&#39;"
  else if c = '<'.toNat then str "&lt;"
  else if c = '>'.toNat then str "&gt;"
  else if c = '"'.toNat then str "&#34;"
  else [c]

/-- The function `html.EscapeString`. -/
def EscapeString : Str → Str
  | [] => []
  | c :: s => escapeByte c ++ EscapeString s

/-- The five entities that `html.EscapeString` produces. -/
def entities : List Str := [str "&amp;", str "&#39;", str "&lt;", str "&gt;", str "&#34;"]

/-- The decoding that `html.UnescapeString` makes of the five entities that
`html.EscapeString` produces (`&amp;`, `&#39;`, `&lt;`, `&gt;`, `&#34;`): each
is replaced by its character, every other byte is kept.  (`38 = &`,
`97 109 112 59 = amp;`, `35 51 57 59 = #39;`, `108 116 59 = lt;`,
`103 116 59 = gt;`, `35 51 52 59 = #34;`.) -/
def UnescapeString : Str → Str
  | 38 :: 97 :: 109 :: 112 :: 59 :: rest => 38 :: UnescapeString rest
  | 38 :: 35 :: 51 :: 57 :: 59 :: rest => 39 :: UnescapeString rest
  | 38 :: 108 :: 116 :: 59 :: rest => 60 :: UnescapeString rest
  | 38 :: 103 :: 116 :: 59 :: rest => 62 :: UnescapeString rest
  | 38 :: 35 :: 51 :: 52 :: 59 :: rest => 34 :: UnescapeString rest
  | c :: rest => c :: UnescapeString rest
  | [] => []

/-- Every `&` of the text begins one of the five entities (checker). -/
def ampersandsBeginEntities : Str → Bool
  | [] => true
  | c :: s =>
    (c != '&'.toNat || entities.any (fun e => e.isPrefixOf (c :: s))) &&
      ampersandsBeginEntities s

/-- The script element of the specification's example. -/
def script : Str := str "<script>alert(1)</script>"

/-- The escaped form of the script element. -/
def escapedScript : Str := str "&lt;script&gt;alert(1)&lt;/script&gt;"


/-! ## The environment of a request: files, request, response -/

/-- The note store: the files of the save directory, from file path to content. -/
abbrev Store := Str → Option Str

/-- The effect of a successful `os.Remove`. -/
def Store.remove (fs : Store) (name : Str) : Store :=
  fun p => if p = name then none else fs p

/-- The effect of a successful `os.WriteFile`. -/
def Store.write (fs : Store) (name data : Str) : Store :=
  fun p => if p = name then some data else fs p

/-- A request body (`io.Reader`): the bytes still to be read, and whether
reading ends in an error instead of the end of the stream. -/
structure Reader where
  data : Str
  fails : Bool

/-- The function `io.ReadAll`: the bytes read (`none` for an error) and the
reader afterwards, which is at its end. -/
def ReadAll (b : Reader) : Option Str × Reader :=
  if b.fails then (none, { data := [], fails := true })
  else (some b.data, { data := [], fails := false })

/-- The fields of `*http.Request` that the handler reads. -/
structure Request where
  /-- `r.Method`. -/
  Method : Str
  /-- `r.URL.Path`. -/
  Path : Str
  /-- `r.URL.RawQuery`. -/
  RawQuery : Str
  /-- `r.Header.Get("Content-Type")`. -/
  ContentType : Str
  /-- `r.UserAgent()`. -/
  UserAgent : Str
  /-- `r.Body`. -/
  Body : Reader

/-- What a call of the handler meets outside the request and the store: the
random source, the verdict of `mime.ParseMediaType` on a header value (the
media type it returns and whether it returns an error), and which of the file
operations fail. -/
structure Env where
  /-- The bytes that `rand.Read` delivers. -/
  random : List Nat
  /-- `mime.ParseMediaType`. -/
  ParseMediaType : Str → Str × Bool
  /-- `os.MkdirAll` returns an error. -/
  mkdirAllFails : Bool
  /-- `os.WriteFile` returns an error. -/
  writeFileFails : Bool
  /-- `os.Remove` returns an error although the file is there. -/
  removeFails : Bool
  /-- `os.Stat` returns an error other than "does not exist". -/
  statFails : Bool
  /-- `os.ReadFile` returns an error although the file is there. -/
  readFileFails : Bool

/-- What the handler has written to the `http.ResponseWriter`. -/
structure Response where
  /-- The status code. -/
  status : Nat
  /-- The header fields set by the handler, as pairs of name and value. -/
  header : List (Str × Str)
  /-- The body. -/
  body : Str

/-- The value of a response header field. -/
def Response.get (w : Response) (name : String) : Option Str :=
  w.header.lookup (str name)

/-- The function `http.Error`. -/
def httpError (msg : Str) (code : Nat) : Response :=
  { status := code,
    header := [(str "Content-Type", str "text/plain; charset=utf-8"),
      (str "X-Content-Type-Options", str "nosniff")],
    body := msg ++ str "\n" }

/-- The function `http.Redirect` for a target `url` that is an absolute path in
clean form, as `"/" + generateRandomID()` is: the `Location` is the target;
a `GET` or `HEAD` request also gets a content type, and a `GET` request a
short HTML body. -/
def Redirect (r : Request) (url : Str) (code : Nat) : Response :=
  { status := code,
    header :=
      (str "Location", url) ::
        (if r.Method = str "GET" ∨ r.Method = str "HEAD" then
          [(str "Content-Type", str "text/html; charset=utf-8")] else []),
    body :=
      if r.Method = str "GET" then
        str "<a href=\"" ++ EscapeString url ++ str "\">Found</a>.\n\n"
      else [] }

/-- The function `filepath.Join` for a directory name and a file name without
separators or dots (a valid note identifier). -/
def Join (dir name : Str) : Str := dir ++ str "/" ++ name

/-- The function `os.ReadFile`: `none` is an error. -/
def ReadFile (env : Env) (fs : Store) (name : Str) : Option Str :=
  if env.readFileFails then none else fs name

/-- The function `parsePostForm` of `net/http`: the values of the body and
whether an error is returned. -/
def parsePostForm (env : Env) (r : Request) : Values × Bool :=
  let ct := if r.ContentType = [] then str "application/octet-stream" else r.ContentType
  let (ct, err) := env.ParseMediaType ct
  if ct = str "application/x-www-form-urlencoded" then
    match (ReadAll r.Body).1 with
    | none => ([], true)
    | some b =>
      if b.length > 10 * 2 ^ 20 then ([], true)
      else ((ParseQuery b).1, err || (ParseQuery b).2)
  else ([], err)

/-- The method `Request.ParseForm` for a `POST` request: the resulting
`r.PostForm`, and whether an error is returned (by `parsePostForm` or by
`url.ParseQuery` on the query of the URL). -/
def ParseForm (env : Env) (r : Request) : Values × Bool :=
  ((parsePostForm env r).1, (parsePostForm env r).2 || (ParseQuery r.RawQuery).2)

/-- The media type tested for by the handler. -/
def formUrlencoded : Str := str "application/x-www-form-urlencoded"

/-- The static text of the page: the four pieces of the format string of
`serveHTMLPage` around its three `%s` verbs (`main.go`, lines 207-557). -/
structure Template where
  /-- From `<!DOCTYPE html>` to `<title>Clipboard - `. -/
  beforeTitle : Str
  /-- From `</title>` to `<div class="note-id">Clipboard: `. -/
  beforeLabel : Str
  /-- From `</div>` to `<textarea id="content" placeholder="Start writing...">`. -/
  beforeText : Str
  /-- From `</textarea>` to `</html>`. -/
  afterText : Str

/-- The call `fmt.Sprintf(format, a, b, c)` for the format string of the page. -/
def Sprintf (tpl : Template) (a b c : Str) : Str :=
  tpl.beforeTitle ++ a ++ tpl.beforeLabel ++ b ++ tpl.beforeText ++ c ++ tpl.afterText

/-! ## serveHTMLPage (`main.go`, lines 186-562) -/

/-- The variable `content` of `serveHTMLPage`: the cleaned-up file data, or the
empty string when the file cannot be read. -/
def pageContent (env : Env) (fs : Store) (filePath : Str) : Str :=
  match ReadFile env fs filePath with
  | some fileData => cleanupFormData fileData
  | none => []

/-- The function `serveHTMLPage`. -/
def serveHTMLPage (env : Env) (tpl : Template) (fs : Store) (noteID filePath : Str) :
    Response :=
  let content := pageContent env fs filePath
  let escapedContent := EscapeString content
  let escapedNoteID := EscapeString noteID
  let html := Sprintf tpl escapedNoteID escapedNoteID escapedContent
  { status := 200,
    header := [(str "Cache-Control", str "no-store"),
      (str "Content-Security-Policy",
        str "default-src 'self'; script-src 'self' 'unsafe-inline'; style-src 'self' 'unsafe-inline'"),
      (str "X-Content-Type-Options", str "nosniff"),
      (str "X-Frame-Options", str "DENY"),
      (str "Content-Type", str "text/html; charset=utf-8")],
    body := html }

/-! ## serveNotepad (`main.go`, lines 48-167) -/

/-- The request after `io.ReadAll(r.Body)`: its body is at the end. -/
def drained (r : Request) : Request := { r with Body := (ReadAll r.Body).2 }

/-- The variable `content` of the `POST` branch (lines 73-105), from the body
read by `io.ReadAll` and the request with its body at the end. -/
def postContent (env : Env) (r : Request) (body : Str) : Str :=
  let contentType := r.ContentType
  if Contains contentType formUrlencoded then
    if (ParseForm env r).2 = false then
      let textValue := (ParseForm env r).1.Get (str "text")
      if textValue ≠ [] then textValue
      else
        let bodyStr := body
        if HasPrefix bodyStr (str "text=") then
          match QueryUnescape (bodyStr.drop 5) with
          | some decoded => decoded
          | none => bodyStr
        else bodyStr
    else body
  else body

/-- The response at the end of the `POST` branch (lines 126-134). -/
def postResponse (r : Request) : Response :=
  if HasPrefix r.UserAgent (str "curl") || HasPrefix r.UserAgent (str "wget") then
    { status := 200, header := [(str "Content-Type", str "text/plain; charset=utf-8")],
      body := str "OK" }
  else { status := 200, header := [], body := [] }

/-- The variable `isRaw` (lines 138-141). -/
def isRaw (r : Request) : Bool :=
  (ParseQuery r.RawQuery).1.Get (str "raw") != [] ||
    HasPrefix r.UserAgent (str "curl") || HasPrefix r.UserAgent (str "wget")

/-- The function `serveNotepad`: the response and the store afterwards; `none`
is a run-time panic. -/
def serveNotepad (env : Env) (tpl : Template) (fs : Store) (r : Request) :
    Option (Response × Store) :=
  let path := TrimPrefix r.Path (str "/")
  if !validNoteID path then
    match generateRandomID env.random with
    | none => none
    | some id => some (Redirect r (str "/" ++ id) 302, fs)
  else
    let filePath := Join savePath path
    if r.Method = str "POST" then
      match ReadAll r.Body with
      | (none, _) => some (httpError (str "Error") 500, fs)
      | (some body, rest) =>
        let content := postContent env { r with Body := rest } body
        if content = [] then
          let fs := if env.removeFails then fs else fs.remove filePath
          some (postResponse r, fs)
        else if env.mkdirAllFails then some (httpError (str "Error") 500, fs)
        else if env.writeFileFails then some (httpError (str "Error") 500, fs)
        else some (postResponse r, fs.write filePath content)
    else if isRaw r then
      let fileExists := env.statFails || (fs filePath).isSome
      if fileExists then
        match ReadFile env fs filePath with
        | none => some (httpError (str "Error") 500, fs)
        | some content =>
          some ({ status := 200,
                  header := [(str "Content-Type", str "text/plain; charset=utf-8")],
                  body := content }, fs)
      else some ({ status := 404, header := [], body := [] }, fs)
    else some (serveHTMLPage env tpl fs path filePath, fs)


/-! ## Sample values -/

/-- An environment in which no file operation fails, the media type parser
returns its argument without error, and the random source delivers `random`. -/
def quietEnv (random : List Nat) : Env :=
  { random := random, ParseMediaType := fun ct => (ct, false), mkdirAllFails := false,
    writeFileFails := false, removeFails := false, statFails := false, readFileFails := false }

/-- The store without notes. -/
def emptyStore : Store := fun _ => none

/-- A page skeleton with the text next to the three insertion points. -/
def sampleTemplate : Template :=
  { beforeTitle := str "<title>Clipboard - ",
    beforeLabel := str "</title><div class=\"note-id\">Clipboard: ",
    beforeText := str "</div><textarea id=\"content\" placeholder=\"Start writing...\">",
    afterText := str "</textarea>" }

/-- A request with a body that is read without error. -/
def mkRequest (method path query contentType userAgent body : String) : Request :=
  { Method := str method, Path := str path, RawQuery := str query,
    ContentType := str contentType, UserAgent := str userAgent,
    Body := { data := str body, fails := false } }

/-- What the handler leaves in the file `name`: `none` when the handler
panics, `some none` when there is no such file afterwards. -/
def storedAfter (result : Option (Response × Store)) (name : Str) : Option (Option Str) :=
  result.map (fun p => p.2 name)

/-- The status of the handler's response. -/
def statusOf (result : Option (Response × Store)) : Option Nat :=
  result.map (fun p => p.1.status)

end NetClipboard

namespace NetClipboard

theorem chars_length : chars.length = 27 := by decide

theorem randRead_length (src : List Nat) : (randRead src).length = 5 := by
  simp [randRead, List.length_take]

theorem pickChar_some (b : Nat) : ∃ c, pickChar b = some c ∧ c ∈ chars := by
  have h : charIndex b < chars.length := Nat.mod_lt _ (by decide)
  refine ⟨chars.get ⟨charIndex b, h⟩, ?_, List.get_mem _ _ _⟩
  simp [pickChar, List.get?_eq_get h]

theorem replaceBytes_some (l : List Nat) :
    ∃ s, replaceBytes l = some s ∧ s.length = l.length ∧ ∀ c ∈ s, c ∈ chars := by
  induction l with
  | nil => exact ⟨[], by simp [replaceBytes]⟩
  | cons b t ih =>
    obtain ⟨s, hs, hl, hm⟩ := ih
    obtain ⟨c, hc, hcm⟩ := pickChar_some b
    refine ⟨c :: s, ?_, by simp [hl], ?_⟩
    · simp [replaceBytes, hc, hs]
    · intro x hx
      rcases List.mem_cons.1 hx with h | h
      · exact h ▸ hcm
      · exact hm x h

/-- C8: whatever the random source delivers (also nothing at all, which leaves
the zero buffer), `generateRandomID` returns a string of exactly 5 characters,
each one of the 27 symbols of `234579abcdefghjkmnpqrstwxyz`, and every index
used to pick a symbol is within the alphabet's bounds. -/
theorem generateRandomID_spec :
    chars = str "234579abcdefghjkmnpqrstwxyz" ∧ chars.length = 27 ∧
    ∀ src : List Nat,
      (∃ s, generateRandomID src = some s ∧ s.length = 5 ∧ ∀ c ∈ s, c ∈ chars) ∧
      (∀ b ∈ randRead src, charIndex b < chars.length) := by
  refine ⟨rfl, chars_length, fun src => ⟨?_, fun b _ => Nat.mod_lt _ (by decide)⟩⟩
  obtain ⟨s, hs, hl, hm⟩ := replaceBytes_some (randRead src)
  exact ⟨s, hs, by rw [hl, randRead_length], hm⟩

/-- C9 (as stated, refuted): the symbols do not all receive the same number of
byte values: `2` is picked by 10 of the 256 byte values and `z` by 9. -/
theorem byteCount_not_uniform :
    ¬ (∀ c ∈ chars, ∀ d ∈ chars, byteCount c = byteCount d) := by
  intro h
  have h2 := h 50 (by decide) 122 (by decide)
  revert h2
  decide

/-- C9 (amended): the map `b -> chars[b mod 27]` sends 10 of the 256 byte values
to each of the first 13 symbols (`234579abcdefg`) and 9 to each of the other 14
symbols (`hjkmnpqrstwxyz`). -/
theorem byteCount_spec (j : Nat) (hj : j < 27) :
    (∀ b, pickChar b = chars.get? (b % 27)) ∧
    ∃ c, chars.get? j = some c ∧ byteCount c = if j < 13 then 10 else 9 := by
  refine ⟨fun b => by simp [pickChar, charIndex, chars_length], ?_⟩
  revert j
  decide

theorem byteCount_spec_witness :
    (0 < 27 ∧ ∃ c, chars.get? 0 = some c ∧ byteCount c = 10) ∧
    (26 < 27 ∧ ∃ c, chars.get? 26 = some c ∧ byteCount c = 9) :=
  ⟨⟨by decide, (byteCount_spec 0 (by decide)).2⟩,
   ⟨by decide, (byteCount_spec 26 (by decide)).2⟩⟩


/-! ### validNoteID -/

theorem iterate_nil (f : Pos → List Pos) (n : Nat) : iterate f n [] = [] := by
  induction n with
  | zero => rfl
  | succ n ih => simp [iterate, ih]

theorem iterate_succ_singleton (f : Pos → List Pos) (n : Nat) (p : Pos) :
    iterate f (n + 1) [p] = f p ++ iterate f n (f p) := by
  simp [iterate]

theorem charClass_ends_nil (rs : List (Nat × Nat)) (b : Bool) :
    (Regexp.charClass rs).ends (b, []) = [] := rfl

theorem charClass_ends_cons (rs : List (Nat × Nat)) (b : Bool) (c : Nat) (s : Str) :
    (Regexp.charClass rs).ends (b, c :: s) = if inRanges rs c then [(false, s)] else [] := rfl

theorem ends_concat (r₁ r₂ : Regexp) (p : Pos) :
    (Regexp.concat r₁ r₂).ends p = (r₁.ends p).flatMap r₂.ends := rfl

theorem ends_plus (r : Regexp) (p : Pos) :
    (Regexp.plus r).ends p = iterate r.ends (p.2.length + 1) [p] := rfl

theorem ends_beginText (p : Pos) : Regexp.beginText.ends p = if p.1 then [p] else [] := rfl

theorem ends_endText (p : Pos) :
    Regexp.endText.ends p = if p.2.isEmpty then [p] else [] := rfl

/-- The ends of `[...]+` from a position: after `k ≥ 1` bytes, all in the class. -/
theorem mem_iterate_charClass (rs : List (Nat × Nat)) (n : Nat) (b : Bool) (s : Str) (q : Pos) :
    q ∈ iterate (Regexp.charClass rs).ends n [(b, s)] ↔
      ∃ k, 1 ≤ k ∧ k ≤ n ∧ k ≤ s.length ∧ (∀ c ∈ s.take k, inRanges rs c = true) ∧
        q = (false, s.drop k) := by
  induction n generalizing b s with
  | zero =>
    simp only [iterate, List.not_mem_nil, false_iff]
    rintro ⟨k, h1, h2, _⟩
    omega
  | succ n ih =>
    rw [iterate_succ_singleton]
    cases s with
    | nil =>
      rw [charClass_ends_nil, iterate_nil]
      simp only [List.append_nil, List.not_mem_nil, false_iff]
      rintro ⟨k, h1, _, h3, _⟩
      simp at h3
      omega
    | cons c t =>
      rw [charClass_ends_cons]
      by_cases hc : inRanges rs c = true
      · rw [if_pos hc, List.singleton_append, List.mem_cons, ih]
        constructor
        · rintro (h | ⟨k, h1, h2, h3, h4, h5⟩)
          · exact ⟨1, le_refl _, by omega, by simp, by simpa using hc, by simpa using h⟩
          · refine ⟨k + 1, by omega, by omega, by simpa using h3, ?_, by simpa using h5⟩
            intro x hx
            simp only [List.take_succ_cons, List.mem_cons] at hx
            rcases hx with rfl | hx
            · exact hc
            · exact h4 x hx
        · rintro ⟨k, h1, h2, h3, h4, h5⟩
          obtain ⟨j, rfl⟩ : ∃ j, k = j + 1 := ⟨k - 1, by omega⟩
          cases j with
          | zero => left; simpa using h5
          | succ j =>
            right
            refine ⟨j + 1, by omega, by omega, by simpa using h3, ?_, by simpa using h5⟩
            intro x hx
            exact h4 x (by simp only [List.take_succ_cons, List.mem_cons]; right; exact hx)
      · rw [if_neg hc, iterate_nil]
        simp only [List.append_nil, List.not_mem_nil, false_iff]
        rintro ⟨k, h1, _, _, h4, _⟩
        obtain ⟨j, rfl⟩ : ∃ j, k = j + 1 := ⟨k - 1, by omega⟩
        exact hc (h4 c (by simp))

/-- The ranges of `noteIdRegexp` are the class `[A-Za-z0-9_-]`. -/
theorem inRanges_iff_isIdChar (c : Nat) :
    inRanges [('a'.toNat, 'z'.toNat), ('A'.toNat, 'Z'.toNat), ('0'.toNat, '9'.toNat),
      ('_'.toNat, '_'.toNat), ('-'.toNat, '-'.toNat)] c = true ↔ isIdChar c := by
  simp only [inRanges, isIdChar, List.any_cons, List.any_nil, Bool.or_false, Bool.or_eq_true,
    Bool.and_eq_true, decide_eq_true_eq]
  constructor
  · rintro (h | h | h | h | h)
    · exact Or.inr (Or.inl h)
    · exact Or.inl h
    · exact Or.inr (Or.inr (Or.inl h))
    · exact Or.inr (Or.inr (Or.inr (Or.inl (le_antisymm h.2 h.1))))
    · exact Or.inr (Or.inr (Or.inr (Or.inr (le_antisymm h.2 h.1))))
  · rintro (h | h | h | h | h)
    · exact Or.inr (Or.inl h)
    · exact Or.inl h
    · exact Or.inr (Or.inr (Or.inl h))
    · exact Or.inr (Or.inr (Or.inr (Or.inl ⟨h.ge, h.le⟩)))
    · exact Or.inr (Or.inr (Or.inr (Or.inr ⟨h.ge, h.le⟩)))

/-- A match of `noteIdRegexp` starts at the beginning of a non-empty text all of
whose bytes are in the class, and nowhere else. -/
theorem noteIdRegexp_ends (p : Pos) :
    (noteIdRegexp.ends p).isEmpty = false ↔
      p.1 = true ∧ p.2 ≠ [] ∧ ∀ c ∈ p.2, isIdChar c := by
  obtain ⟨b, s⟩ := p
  have key : ∀ q : Pos, q ∈ noteIdRegexp.ends (b, s) ↔
      b = true ∧ q = (false, []) ∧ s ≠ [] ∧ ∀ c ∈ s, isIdChar c := by
    intro q
    simp only [noteIdRegexp, ends_concat, ends_plus, ends_beginText, ends_endText,
      List.mem_flatMap]
    constructor
    · rintro ⟨p1, hp1, p2, hp2, hq⟩
      split at hp1
      · rename_i hb
        simp only [List.mem_singleton] at hp1
        subst hp1
        rw [mem_iterate_charClass] at hp2
        obtain ⟨k, h1, _, h3, h4, rfl⟩ := hp2
        split at hq
        · rename_i he
          simp only [List.mem_singleton] at hq
          simp only [List.isEmpty_eq_true, List.drop_eq_nil_iff] at he
          have hk : k = s.length := le_antisymm h3 he
          subst hk
          refine ⟨hb, ?_, ?_, ?_⟩
          · rw [hq]; simp
          · intro h; subst h; simp at h1
          · intro c hc
            exact (inRanges_iff_isIdChar c).1 (h4 c (by simpa using hc))
        · simp at hq
      · simp at hp1
    · rintro ⟨rfl, rfl, hs, hall⟩
      refine ⟨(true, s), by simp, (false, []), ?_, by simp⟩
      rw [mem_iterate_charClass]
      refine ⟨s.length, ?_, by simp, le_refl _, ?_, by simp⟩
      · cases s with
        | nil => exact absurd rfl hs
        | cons c t => simp
      · intro c hc
        exact (inRanges_iff_isIdChar c).2 (hall c (by simpa using hc))
  constructor
  · intro h
    cases hl : noteIdRegexp.ends (b, s) with
    | nil => rw [hl] at h; simp at h
    | cons q t =>
      have hq : q ∈ noteIdRegexp.ends (b, s) := by rw [hl]; simp
      obtain ⟨h1, _, h3, h4⟩ := (key q).1 hq
      exact ⟨h1, h3, h4⟩
  · rintro ⟨h1, h2, h3⟩
    have hq : ((false, []) : Pos) ∈ noteIdRegexp.ends (b, s) := (key _).2 ⟨h1, rfl, h2, h3⟩
    cases hl : noteIdRegexp.ends (b, s) with
    | nil => rw [hl] at hq; simp at hq
    | cons q t => rfl

theorem MatchString_noteIdRegexp (s : Str) :
    MatchString noteIdRegexp s = true ↔ s ≠ [] ∧ ∀ c ∈ s, isIdChar c := by
  simp only [MatchString, startPositions, List.any_cons, Bool.or_eq_true, Bool.not_eq_true',
    List.any_eq_true, List.mem_map]
  constructor
  · rintro (h | ⟨p, ⟨t, _, rfl⟩, h⟩)
    · exact ((noteIdRegexp_ends _).1 h).2
    · exact absurd ((noteIdRegexp_ends _).1 h).1 (by simp)
  · intro h
    exact Or.inl ((noteIdRegexp_ends (true, s)).2 ⟨rfl, h⟩)

theorem validNoteID_iff (s : Str) :
    validNoteID s = true ↔ 1 ≤ s.length ∧ s.length ≤ 64 ∧ ∀ c ∈ s, isIdChar c := by
  unfold validNoteID maxNoteLen
  by_cases h : (s = [] || decide (s.length > 64)) = true
  · rw [if_pos h]
    simp only [Bool.or_eq_true, decide_eq_true_eq] at h
    constructor
    · intro hf; exact absurd hf (by simp)
    · rintro ⟨h1, h2, _⟩
      rcases h with h | h
      · subst h; simp at h1
      · omega
  · rw [if_neg h, MatchString_noteIdRegexp]
    simp only [Bool.or_eq_true, decide_eq_true_eq, not_or, not_lt] at h
    constructor
    · rintro ⟨h1, h2⟩
      exact ⟨List.length_pos.2 h1, h.2, h2⟩
    · rintro ⟨h1, _, h3⟩
      exact ⟨List.length_pos.1 h1, h3⟩

/-- C1: `validNoteID s` is true exactly when `s` has between 1 and 64 bytes, all in
`[A-Za-z0-9_-]`; so it is false for the empty string, for every string longer
than 64 and for every string with another byte in it, such as `/`, `.`, a
space, a (trailing) newline or a non-ASCII byte. -/
theorem validNoteID_spec :
    (∀ s : Str, validNoteID s = true ↔
      (1 ≤ s.length ∧ s.length ≤ 64 ∧ ∀ c ∈ s, isIdChar c)) ∧
    validNoteID [] = false ∧
    (∀ s : Str, 64 < s.length → validNoteID s = false) ∧
    (∀ (s : Str) (c : Nat), c ∈ s → ¬ isIdChar c → validNoteID s = false) ∧
    (¬ isIdChar '/'.toNat ∧ ¬ isIdChar '.'.toNat ∧ ¬ isIdChar ' '.toNat ∧
      ¬ isIdChar '\n'.toNat ∧ ∀ c, 128 ≤ c → ¬ isIdChar c) ∧
    validNoteID (str "abc\n") = false := by
  refine ⟨validNoteID_iff, by decide, ?_, ?_, ⟨by decide, by decide, by decide, by decide, ?_⟩,
    by decide⟩
  · intro s hs
    cases h : validNoteID s with
    | false => rfl
    | true => have := (validNoteID_iff s).1 h; omega
  · intro s c hc hn
    cases h : validNoteID s with
    | false => rfl
    | true => exact absurd ((validNoteID_iff s).1 h).2.2 (fun h' => hn (h' c hc))
  · intro c hc h
    simp only [isIdChar] at h
    have e1 : 'A'.toNat = 65 := rfl
    have e2 : 'Z'.toNat = 90 := rfl
    have e3 : 'a'.toNat = 97 := rfl
    have e4 : 'z'.toNat = 122 := rfl
    have e5 : '0'.toNat = 48 := rfl
    have e6 : '9'.toNat = 57 := rfl
    have e7 : '_'.toNat = 95 := rfl
    have e8 : '-'.toNat = 45 := rfl
    rw [e1, e2, e3, e4, e5, e6, e7, e8] at h
    omega

theorem validNoteID_spec_witness :
    validNoteID (str "Note_1-a") = true ∧ validNoteID (str "a/b") = false ∧
    validNoteID (List.replicate 65 'a'.toNat) = false :=
  ⟨(validNoteID_spec.1 (str "Note_1-a")).2 (by decide),
   validNoteID_spec.2.2.2.1 (str "a/b") '/'.toNat (by decide) (by decide),
   validNoteID_spec.2.2.1 (List.replicate 65 'a'.toNat) (by decide)⟩


/-! ### cleanupFormData -/

theorem hasPrefix_nil_cons (x : Nat) (xs : Str) : HasPrefix [] (x :: xs) = false := by
  simp [HasPrefix, List.isPrefixOf]

theorem hasPrefix_cons_one (c x : Nat) (s : Str) : HasPrefix (c :: s) [x] = (x == c) := by
  simp [HasPrefix, List.isPrefixOf]

theorem hasPrefix_cons_cons (c x : Nat) (s xs : Str) :
    HasPrefix (c :: s) (x :: xs) = (x == c && HasPrefix s xs) := by
  simp [HasPrefix, List.isPrefixOf]

theorem hasPrefix_iff (s pre : Str) : HasPrefix s pre = true ↔ pre <+: s := by
  simp [HasPrefix]

theorem replaceAll_nil (old new : Str) : ReplaceAll [] old new = [] := rfl

/-- An occurrence of a three-byte `old` at the front is replaced and the scan
goes on behind it. -/
theorem replaceAll_match (a b r : Nat) (t : Str) :
    ReplaceAll (37 :: a :: b :: t) [37, a, b] [r] = r :: ReplaceAll t [37, a, b] [r] := by
  simp [ReplaceAll, replaceScan, HasPrefix, List.isPrefixOf]

/-- A byte at which `old` does not occur is copied. -/
theorem replaceAll_copy (a b r c : Nat) (t : Str)
    (h : c ≠ 37 ∨ HasPrefix t [a, b] = false) :
    ReplaceAll (c :: t) [37, a, b] [r] = c :: ReplaceAll t [37, a, b] [r] := by
  have hp : HasPrefix (c :: t) [37, a, b] = false := by
    rw [hasPrefix_cons_cons]
    rcases h with h | h
    · have : (37 == c) = false := by simpa using fun e => h e.symm
      rw [this]; rfl
    · rw [h]; simp
  simp [ReplaceAll, replaceScan, hp]

/-- A replacement does not change whether the text starts with a byte that is
neither `%` nor the replacement byte. -/
theorem replaceAll_head (a b r y : Nat) (t : Str) (h1 : y ≠ 37) (h2 : y ≠ r) :
    HasPrefix (ReplaceAll t [37, a, b] [r]) [y] = HasPrefix t [y] := by
  cases t with
  | nil => rfl
  | cons c t =>
    by_cases hc : c = 37 ∧ HasPrefix t [a, b] = true
    · obtain ⟨rfl, hp⟩ := hc
      obtain ⟨u, rfl⟩ : ∃ u, t = a :: b :: u := by
        rw [hasPrefix_iff] at hp
        obtain ⟨u, hu⟩ := hp
        exact ⟨u, by simpa using hu.symm⟩
      rw [replaceAll_match, hasPrefix_cons_one, hasPrefix_cons_one,
        beq_false_of_ne h1, beq_false_of_ne h2]
    · rw [replaceAll_copy, hasPrefix_cons_one, hasPrefix_cons_one]
      by_cases h : c = 37
      · right; simpa [h] using hc
      · left; exact h

/-- A replacement creates no occurrence of a two-byte string made of bytes that
are neither `%` nor the replacement byte, and destroys none. -/
theorem replaceAll_head₂ (a b r x y : Nat) (t : Str)
    (hx1 : x ≠ 37) (hx2 : x ≠ r) (hy1 : y ≠ 37) (hy2 : y ≠ r) :
    HasPrefix (ReplaceAll t [37, a, b] [r]) [x, y] = HasPrefix t [x, y] := by
  cases t with
  | nil => rfl
  | cons c t =>
    by_cases hc : c = 37 ∧ HasPrefix t [a, b] = true
    · obtain ⟨rfl, hp⟩ := hc
      obtain ⟨u, rfl⟩ : ∃ u, t = a :: b :: u := by
        rw [hasPrefix_iff] at hp
        obtain ⟨u, hu⟩ := hp
        exact ⟨u, by simpa using hu.symm⟩
      rw [replaceAll_match, hasPrefix_cons_cons, hasPrefix_cons_cons,
        beq_false_of_ne hx1, beq_false_of_ne hx2]
      rfl
    · rw [replaceAll_copy, hasPrefix_cons_cons, hasPrefix_cons_cons,
        replaceAll_head a b r y t hy1 hy2]
      by_cases h : c = 37
      · right; simpa [h] using hc
      · left; exact h

/-- The four successive replacements of `cleanupFormData`. -/
theorem cleanupFormData_eq (c : Str) :
    cleanupFormData c =
      ReplaceAll (ReplaceAll (ReplaceAll (ReplaceAll
        (if HasPrefix c (str "text=") then c.drop 5 else c)
        [37, 48, 65] [10]) [37, 48, 68] [13]) [37, 48, 57] [9]) [37, 50, 48] [32] := rfl

theorem not_hasPrefix₂ (x y : Nat) (t : Str) (h : ∀ u : List Nat, t = x :: y :: u → False) :
    HasPrefix t [x, y] = false := by
  cases hp : HasPrefix t [x, y] with
  | false => rfl
  | true =>
    rw [hasPrefix_iff] at hp
    obtain ⟨u, hu⟩ := hp
    exact absurd (by simpa using hu.symm) (h u)

theorem replaceAll_copy₁ (a b r c : Nat) (t : Str) (h : c ≠ 37) :
    ReplaceAll (c :: t) [37, a, b] [r] = c :: ReplaceAll t [37, a, b] [r] :=
  replaceAll_copy a b r c t (Or.inl h)

/-- A three-byte block `%xy` other than `old` is copied when `x`, `y` are not `%`. -/
theorem replaceAll_copy₃ (a b r x y : Nat) (t : Str) (hxy : ¬ (a = x ∧ b = y))
    (hx : x ≠ 37) (hy : y ≠ 37) :
    ReplaceAll (37 :: x :: y :: t) [37, a, b] [r] =
      37 :: x :: y :: ReplaceAll t [37, a, b] [r] := by
  rw [replaceAll_copy a b r 37 _ (Or.inr ?_), replaceAll_copy₁ a b r x _ hx,
    replaceAll_copy₁ a b r y _ hy]
  rw [hasPrefix_cons_cons, hasPrefix_cons_one]
  by_cases h1 : a = x
  · have h2 : b ≠ y := fun h => hxy ⟨h1, h⟩
    rw [beq_false_of_ne h2]; simp
  · rw [beq_false_of_ne h1]; rfl

/-- The four successive replacements make the single pass. -/
theorem replaceAll_four_eq_singlePass (s : Str) :
    ReplaceAll (ReplaceAll (ReplaceAll (ReplaceAll s
        [37, 48, 65] [10]) [37, 48, 68] [13]) [37, 48, 57] [9]) [37, 50, 48] [32]
      = singlePass s := by
  induction s using singlePass.induct with
  | case1 rest ih =>
    rw [singlePass, replaceAll_match 48 65 10,
      replaceAll_copy₁ 48 68 13 10 _ (by decide), replaceAll_copy₁ 48 57 9 10 _ (by decide),
      replaceAll_copy₁ 50 48 32 10 _ (by decide), ih]
  | case2 rest ih =>
    rw [singlePass, replaceAll_copy₃ 48 65 10 48 68 _ (by decide) (by decide) (by decide),
      replaceAll_match 48 68 13,
      replaceAll_copy₁ 48 57 9 13 _ (by decide),
      replaceAll_copy₁ 50 48 32 13 _ (by decide), ih]
  | case3 rest ih =>
    rw [singlePass, replaceAll_copy₃ 48 65 10 48 57 _ (by decide) (by decide) (by decide),
      replaceAll_copy₃ 48 68 13 48 57 _ (by decide) (by decide) (by decide),
      replaceAll_match 48 57 9,
      replaceAll_copy₁ 50 48 32 9 _ (by decide), ih]
  | case4 rest ih =>
    rw [singlePass, replaceAll_copy₃ 48 65 10 50 48 _ (by decide) (by decide) (by decide),
      replaceAll_copy₃ 48 68 13 50 48 _ (by decide) (by decide) (by decide),
      replaceAll_copy₃ 48 57 9 50 48 _ (by decide) (by decide) (by decide),
      replaceAll_match 50 48 32, ih]
  | case5 c rest h1 h2 h3 h4 ih =>
    rw [singlePass.eq_5 c rest h1 h2 h3 h4, ← ih]
    by_cases hc : c = 37
    · have g1 := not_hasPrefix₂ 48 65 rest (fun u => h1 u hc)
      have g2 := not_hasPrefix₂ 48 68 rest (fun u => h2 u hc)
      have g3 := not_hasPrefix₂ 48 57 rest (fun u => h3 u hc)
      have g4 := not_hasPrefix₂ 50 48 rest (fun u => h4 u hc)
      rw [replaceAll_copy 48 65 10 c rest (Or.inr g1),
        replaceAll_copy 48 68 13 c _ (Or.inr (by
          rw [replaceAll_head₂ _ _ _ _ _ _ (by decide) (by decide) (by decide) (by decide)]
          exact g2)),
        replaceAll_copy 48 57 9 c _ (Or.inr (by
          rw [replaceAll_head₂ _ _ _ _ _ _ (by decide) (by decide) (by decide) (by decide),
            replaceAll_head₂ _ _ _ _ _ _ (by decide) (by decide) (by decide) (by decide)]
          exact g3)),
        replaceAll_copy 50 48 32 c _ (Or.inr (by
          rw [replaceAll_head₂ _ _ _ _ _ _ (by decide) (by decide) (by decide) (by decide),
            replaceAll_head₂ _ _ _ _ _ _ (by decide) (by decide) (by decide) (by decide),
            replaceAll_head₂ _ _ _ _ _ _ (by decide) (by decide) (by decide) (by decide)]
          exact g4))]
    · rw [replaceAll_copy₁ 48 65 10 c _ hc, replaceAll_copy₁ 48 68 13 c _ hc,
        replaceAll_copy₁ 48 57 9 c _ hc, replaceAll_copy₁ 50 48 32 c _ hc]
  | case6 => rfl

/-- The single pass creates no occurrence of a two-byte string made of bytes
that are neither `%` nor one of the four replacement bytes. -/
theorem singlePass_head₂ (x y : Nat) (t : Str)
    (hx : x ≠ 37 ∧ x ≠ 10 ∧ x ≠ 13 ∧ x ≠ 9 ∧ x ≠ 32)
    (hy : y ≠ 37 ∧ y ≠ 10 ∧ y ≠ 13 ∧ y ≠ 9 ∧ y ≠ 32) :
    HasPrefix (singlePass t) [x, y] = HasPrefix t [x, y] := by
  rw [← replaceAll_four_eq_singlePass,
    replaceAll_head₂ _ _ _ _ _ _ hx.1 hx.2.2.2.2 hy.1 hy.2.2.2.2,
    replaceAll_head₂ _ _ _ _ _ _ hx.1 hx.2.2.2.1 hy.1 hy.2.2.2.1,
    replaceAll_head₂ _ _ _ _ _ _ hx.1 hx.2.2.1 hy.1 hy.2.2.1,
    replaceAll_head₂ _ _ _ _ _ _ hx.1 hx.2.1 hy.1 hy.2.1]

theorem infix_cons_iff' (p : Str) (c : Nat) (l : Str) :
    p <:+: c :: l ↔ p <+: c :: l ∨ p <:+: l := List.infix_cons_iff

/-- No occurrence of `%xy` in the output of the single pass, for `x`, `y` as in
the four escapes. -/
theorem singlePass_no_escape (x y : Nat) (s : Str)
    (hp : [37, x, y] ∈ legacyEscapes) : ¬ [37, x, y] <:+: singlePass s := by
  have hxy : (x = 48 ∧ y = 65) ∨ (x = 48 ∧ y = 68) ∨ (x = 48 ∧ y = 57) ∨ (x = 50 ∧ y = 48) := by
    have e : legacyEscapes = [[37, 48, 65], [37, 48, 68], [37, 48, 57], [37, 50, 48]] := rfl
    rw [e] at hp
    simp only [List.mem_cons, List.cons.injEq, and_true, true_and, List.mem_singleton,
      List.not_mem_nil, or_false] at hp
    exact hp
  have hx : x ≠ 37 ∧ x ≠ 10 ∧ x ≠ 13 ∧ x ≠ 9 ∧ x ≠ 32 := by omega
  have hy : y ≠ 37 ∧ y ≠ 10 ∧ y ≠ 13 ∧ y ≠ 9 ∧ y ≠ 32 := by omega
  have step : ∀ (c : Nat) (r : Str), (c = 37 → HasPrefix r [x, y] = false) →
      ¬ [37, x, y] <:+: singlePass r → ¬ [37, x, y] <:+: c :: singlePass r := by
    intro c r h1 h2 h
    rcases (infix_cons_iff' _ _ _).1 h with h | h
    · have h' := (hasPrefix_iff _ _).2 h
      rw [hasPrefix_cons_cons] at h'
      simp only [Bool.and_eq_true, beq_iff_eq] at h'
      rw [singlePass_head₂ x y r hx hy, h1 h'.1.symm] at h'
      exact absurd h'.2 (by simp)
    · exact h2 h
  induction s using singlePass.induct with
  | case1 rest ih => rw [singlePass]; exact step _ _ (fun h => absurd h (by decide)) ih
  | case2 rest ih => rw [singlePass]; exact step _ _ (fun h => absurd h (by decide)) ih
  | case3 rest ih => rw [singlePass]; exact step _ _ (fun h => absurd h (by decide)) ih
  | case4 rest ih => rw [singlePass]; exact step _ _ (fun h => absurd h (by decide)) ih
  | case5 c rest h1 h2 h3 h4 ih =>
    rw [singlePass.eq_5 c rest h1 h2 h3 h4]
    refine step _ _ (fun hc => ?_) ih
    rcases hxy with ⟨rfl, rfl⟩ | ⟨rfl, rfl⟩ | ⟨rfl, rfl⟩ | ⟨rfl, rfl⟩
    · exact not_hasPrefix₂ _ _ rest (fun u => h1 u hc)
    · exact not_hasPrefix₂ _ _ rest (fun u => h2 u hc)
    · exact not_hasPrefix₂ _ _ rest (fun u => h3 u hc)
    · exact not_hasPrefix₂ _ _ rest (fun u => h4 u hc)
  | case6 => simp [singlePass]

theorem cleanupFormData_eq_cleanupSpec (c : Str) : cleanupFormData c = cleanupSpec c := by
  rw [cleanupFormData_eq, replaceAll_four_eq_singlePass, cleanupSpec]
  congr 1
  by_cases h : HasPrefix c (str "text=") = true
  · rw [if_pos h, if_pos ((hasPrefix_iff _ _).1 h)]
  · rw [if_neg h, if_neg (fun h' => h ((hasPrefix_iff _ _).2 h'))]

/-- C10: `cleanupFormData c` is the result of removing one leading `text=` from
`c` and then replacing, in a single left-to-right pass, each occurrence of
`%0A`, `%0D`, `%09`, `%20` by newline, carriage return, tab, space (the four
successive `ReplaceAll` calls never decode the output of an earlier one); the
result contains none of the four literal substrings, and every other byte,
such as `%25`, lower-case `%0a` and `+`, is kept. -/
theorem cleanupFormData_spec :
    (∀ c : Str, cleanupFormData c = cleanupSpec c) ∧
    (∀ c : Str, ∀ p ∈ legacyEscapes, ¬ p <:+: cleanupFormData c) ∧
    cleanupFormData (str "%25%0a+") = str "%25%0a+" ∧
    cleanupFormData (str "text=text=a%20b%0A%0D%09c%250A") = str "text=a b\n\r\tc%250A" := by
  refine ⟨cleanupFormData_eq_cleanupSpec, ?_, by decide, by decide⟩
  intro c p hp
  rw [cleanupFormData_eq_cleanupSpec, cleanupSpec]
  have e : legacyEscapes = [[37, 48, 65], [37, 48, 68], [37, 48, 57], [37, 50, 48]] := rfl
  have hp' := hp
  rw [e] at hp'
  simp only [List.mem_cons, List.mem_singleton, List.not_mem_nil, or_false] at hp'
  rcases hp' with rfl | rfl | rfl | rfl <;> exact singlePass_no_escape _ _ _ hp


/-! ### net/url, html, strings: the models on sample inputs -/

theorem queryUnescape_samples :
    QueryUnescape (str "hello%20world") = some (str "hello world") ∧
    QueryUnescape (str "a+b%2Bc") = some (str "a b+c") ∧
    QueryUnescape (str "a%zz") = none ∧ QueryUnescape (str "a%2") = none := by decide

theorem parseQuery_samples :
    ParseQuery (str "text=a&x=b") = ([(str "text", str "a"), (str "x", str "b")], false) ∧
    ParseQuery (str "") = ([], false) ∧ ParseQuery (str "a;b") = ([], true) ∧
    ParseQuery (str "%zz") = ([], true) ∧
    ParseQuery (str "raw=1&") = ([(str "raw", str "1")], false) := by decide

theorem escapeString_samples :
    EscapeString (str "<a href='x'>&\"") = str "&lt;a href=&#39;x&#39;&gt;&amp;&#34;" ∧
    UnescapeString (str "&lt;a href=&#39;x&#39;&gt;&amp;&#34;") = str "<a href='x'>&\"" := by
  decide

theorem contains_samples :
    Contains (str "application/x-www-form-urlencoded; charset=UTF-8") formUrlencoded = true ∧
    Contains (str "text/plain; charset=UTF-8") formUrlencoded = false ∧
    Contains [] formUrlencoded = false := by decide

theorem cleanupFormData_samples :
    cleanupFormData (str "text=a%20b%0Ac%250A") = str "a b\nc%250A" ∧
    cleanupSpec (str "text=a%20b%0Ac%250A") = str "a b\nc%250A" := by decide

/-! ### serveNotepad -/

/-- The file of a note. -/
theorem filePath_eq (noteID : Str) : Join savePath noteID = str "_tmp/" ++ noteID := rfl

theorem parseQuery_nil : ParseQuery [] = ([], false) := by decide

theorem drained_body (r : Request) (h : r.Body.fails = false) :
    (drained r).Body = { data := [], fails := false } := by
  simp [drained, ReadAll, h]

/-- A body that has been read to its end holds no form field: `ParseForm`
after `io.ReadAll` leaves `r.PostForm` empty. -/
theorem parseForm_drained (env : Env) (r : Request) (h : r.Body.fails = false) :
    (ParseForm env (drained r)).1 = [] := by
  have hq := parseQuery_nil
  unfold ParseForm parsePostForm
  simp only [drained_body r h, ReadAll, Bool.false_eq_true, if_false]
  split <;> split <;> simp [hq]

/-- Whether `ParseForm` returns an error after the body has been read: the
error of the media type parser or that of the parser of the URL query. -/
theorem parseForm_drained_err (env : Env) (r : Request) (h : r.Body.fails = false) :
    (ParseForm env (drained r)).2 =
      ((env.ParseMediaType
        (if r.ContentType = [] then str "application/octet-stream" else r.ContentType)).2 ||
        (ParseQuery r.RawQuery).2) := by
  have hq := parseQuery_nil
  have e1 : (drained r).ContentType = r.ContentType := rfl
  have e2 : (drained r).RawQuery = r.RawQuery := rfl
  unfold ParseForm parsePostForm
  simp only [drained_body r h, ReadAll, Bool.false_eq_true, if_false, e1, e2]
  split <;> split <;> simp [hq]

theorem postContent_other (env : Env) (r : Request) (body : Str)
    (h : Contains r.ContentType formUrlencoded = false) :
    postContent env (drained r) body = body := by
  have h' : Contains (drained r).ContentType formUrlencoded = false := h
  simp [postContent, h']

theorem postContent_form (env : Env) (r : Request) (body : Str)
    (h : Contains r.ContentType formUrlencoded = true) (hb : r.Body.fails = false) :
    postContent env (drained r) body =
      if (ParseForm env (drained r)).2 = false then
        if HasPrefix body (str "text=") then
          match QueryUnescape (body.drop 5) with
          | some decoded => decoded
          | none => body
        else body
      else body := by
  have h' : Contains (drained r).ContentType formUrlencoded = true := h
  have hd : (ParseForm env (drained r)).1 = [] := parseForm_drained env _ hb
  simp only [postContent, h', if_true, hd, Values.Get, List.find?_nil, ne_eq, not_true_eq_false,
    if_false]

/-- The `POST` branch for a valid identifier and a body that is read without error. -/
theorem serveNotepad_post (env : Env) (tpl : Template) (fs : Store) (r : Request) (b : Str)
    (hid : validNoteID (TrimPrefix r.Path (str "/")) = true)
    (hm : r.Method = str "POST") (hb : r.Body = { data := b, fails := false }) :
    serveNotepad env tpl fs r =
      if postContent env (drained r) b = [] then
        some (postResponse r,
          if env.removeFails then fs else fs.remove (Join savePath (TrimPrefix r.Path (str "/"))))
      else if env.mkdirAllFails then some (httpError (str "Error") 500, fs)
      else if env.writeFileFails then some (httpError (str "Error") 500, fs)
      else some (postResponse r,
        fs.write (Join savePath (TrimPrefix r.Path (str "/"))) (postContent env (drained r) b)) := by
  simp only [serveNotepad, hid, Bool.not_true, Bool.false_eq_true, if_false, hm, if_true, hb,
    ReadAll, drained]

/-- The read branch for a valid identifier. -/
theorem serveNotepad_read (env : Env) (tpl : Template) (fs : Store) (r : Request)
    (hid : validNoteID (TrimPrefix r.Path (str "/")) = true)
    (hm : r.Method ≠ str "POST") :
    serveNotepad env tpl fs r =
      if isRaw r then
        if (env.statFails || (fs (Join savePath (TrimPrefix r.Path (str "/")))).isSome) = true then
          match ReadFile env fs (Join savePath (TrimPrefix r.Path (str "/"))) with
          | none => some (httpError (str "Error") 500, fs)
          | some content =>
            some ({ status := 200,
                    header := [(str "Content-Type", str "text/plain; charset=utf-8")],
                    body := content }, fs)
        else some ({ status := 404, header := [], body := [] }, fs)
      else some (serveHTMLPage env tpl fs (TrimPrefix r.Path (str "/"))
        (Join savePath (TrimPrefix r.Path (str "/"))), fs) := by
  simp only [serveNotepad, hid, Bool.not_true, Bool.false_eq_true, if_false, hm]

theorem postResponse_status (r : Request) : (postResponse r).status = 200 := by
  unfold postResponse
  split <;> rfl

/-- C2: a request (any method, body, headers, query) whose path segment fails
`validNoteID` is answered, in every state of the note store, with status 302
and the `Location` `/` followed by a generated identifier (5 symbols of the
alphabet), and the note store is left as it was. -/
theorem serveNotepad_invalid (env : Env) (tpl : Template) (fs : Store) (r : Request)
    (h : validNoteID (TrimPrefix r.Path (str "/")) = false) :
    ∃ id w, generateRandomID env.random = some id ∧ id.length = 5 ∧ (∀ c ∈ id, c ∈ chars) ∧
      serveNotepad env tpl fs r = some (w, fs) ∧ w.status = 302 ∧
      w.get "Location" = some (str "/" ++ id) := by
  obtain ⟨id, hid, hl, hm⟩ := replaceBytes_some (randRead env.random)
  have hg : generateRandomID env.random = some id := hid
  refine ⟨id, Redirect r (str "/" ++ id) 302, hg, by rw [hl, randRead_length], hm, ?_, rfl, ?_⟩
  · simp only [serveNotepad, h, Bool.not_false, if_true, hg]
  · simp [Response.get, Redirect, List.lookup]

theorem serveNotepad_invalid_witness :
    validNoteID (TrimPrefix (mkRequest "POST" "/a.b" "raw=1" "text/plain" "curl/8.0" "x").Path
      (str "/")) = false ∧
    ∃ id w, generateRandomID (quietEnv [0, 26, 27, 255]).random = some id ∧ id.length = 5 ∧
      (∀ c ∈ id, c ∈ chars) ∧
      serveNotepad (quietEnv [0, 26, 27, 255]) sampleTemplate emptyStore
        (mkRequest "POST" "/a.b" "raw=1" "text/plain" "curl/8.0" "x") = some (w, emptyStore) ∧
      w.status = 302 ∧ w.get "Location" = some (str "/" ++ id) :=
  ⟨by decide, serveNotepad_invalid _ _ _ _ (by decide)⟩

theorem isRaw_iff (r : Request) :
    isRaw r = true ↔ ((ParseQuery r.RawQuery).1.Get (str "raw") ≠ [] ∨
      HasPrefix r.UserAgent (str "curl") = true ∨ HasPrefix r.UserAgent (str "wget") = true) := by
  simp [isRaw, or_assoc]

set_option maxRecDepth 20000 in
/-- C3 (as stated, refuted): a `POST` to the valid identifier `abc` whose content
type is `application/x-www-form-urlencoded2` (a media type other than
form-urlencoded) with the non-empty body `text=a%20b`: the handler finds the
text `application/x-www-form-urlencoded` inside the header value, strips
`text=` and unescapes the rest, so it stores `a b` and not the body, and a
following raw-mode `GET` returns `a b`. -/
theorem post_with_similar_content_type_is_decoded :
    validNoteID (TrimPrefix (mkRequest "POST" "/abc" "" "application/x-www-form-urlencoded2"
      "Mozilla" "text=a%20b").Path (str "/")) = true ∧
    (mkRequest "POST" "/abc" "" "application/x-www-form-urlencoded2" "Mozilla"
      "text=a%20b").ContentType ≠ str "application/x-www-form-urlencoded" ∧
    ((quietEnv []).ParseMediaType (mkRequest "POST" "/abc" ""
      "application/x-www-form-urlencoded2" "Mozilla" "text=a%20b").ContentType).1 ≠
        str "application/x-www-form-urlencoded" ∧
    (mkRequest "POST" "/abc" "" "application/x-www-form-urlencoded2" "Mozilla"
      "text=a%20b").Body.data = str "text=a%20b" ∧
    str "text=a%20b" ≠ [] ∧
    storedAfter (serveNotepad (quietEnv []) sampleTemplate emptyStore
      (mkRequest "POST" "/abc" "" "application/x-www-form-urlencoded2" "Mozilla"
        "text=a%20b")) (str "_tmp/abc") = some (some (str "a b")) ∧
    storedAfter (serveNotepad (quietEnv []) sampleTemplate emptyStore
      (mkRequest "POST" "/abc" "" "application/x-www-form-urlencoded2" "Mozilla"
        "text=a%20b")) (str "_tmp/abc") ≠ some (some (str "text=a%20b")) ∧
    ((serveNotepad (quietEnv []) sampleTemplate emptyStore
      (mkRequest "POST" "/abc" "" "application/x-www-form-urlencoded2" "Mozilla"
        "text=a%20b")).bind (fun p =>
          (serveNotepad (quietEnv []) sampleTemplate p.2
            (mkRequest "GET" "/abc" "raw=1" "" "Mozilla" "")).map (fun q => q.1.body))) =
      some (str "a b") := by
  decide

/-- C3 (amended): for a valid identifier, any prior store and a non-empty body
`b` sent by `POST` with a content type that does not contain the text
`application/x-www-form-urlencoded` (also none at all), the stored content of
the identifier becomes exactly `b` (nothing else in the store changes), and a
following raw-mode `GET` (non-empty `raw` query parameter, or user agent
starting with `curl` or `wget`) is answered 200 with content type
`text/plain; charset=utf-8` and body `b`, byte for byte.  The file operations
of the two requests are taken to succeed. -/
theorem write_then_raw_read (env₁ env₂ : Env) (tpl : Template) (fs : Store) (r₁ r₂ : Request)
    (b : Str)
    (hid : validNoteID (TrimPrefix r₁.Path (str "/")) = true)
    (hpost : r₁.Method = str "POST") (hbody : r₁.Body = { data := b, fails := false })
    (hb : b ≠ [])
    (hct : Contains r₁.ContentType formUrlencoded = false)
    (hio₁ : env₁.mkdirAllFails = false ∧ env₁.writeFileFails = false)
    (hget : r₂.Method = str "GET") (hpath : r₂.Path = r₁.Path)
    (hraw : (ParseQuery r₂.RawQuery).1.Get (str "raw") ≠ [] ∨
      HasPrefix r₂.UserAgent (str "curl") = true ∨ HasPrefix r₂.UserAgent (str "wget") = true)
    (hio₂ : env₂.readFileFails = false) :
    ∃ w₁ fs₁ w₂,
      serveNotepad env₁ tpl fs r₁ = some (w₁, fs₁) ∧ w₁.status = 200 ∧
      fs₁ (Join savePath (TrimPrefix r₁.Path (str "/"))) = some b ∧
      (∀ p, p ≠ Join savePath (TrimPrefix r₁.Path (str "/")) → fs₁ p = fs p) ∧
      serveNotepad env₂ tpl fs₁ r₂ = some (w₂, fs₁) ∧ w₂.status = 200 ∧
      w₂.get "Content-Type" = some (str "text/plain; charset=utf-8") ∧ w₂.body = b := by
  have hc : postContent env₁ (drained r₁) b = b := postContent_other env₁ r₁ b hct
  have h1 := serveNotepad_post env₁ tpl fs r₁ b hid hpost hbody
  rw [hc, if_neg hb, hio₁.1, hio₁.2] at h1
  simp only [Bool.false_eq_true, if_false] at h1
  have hid₂ : validNoteID (TrimPrefix r₂.Path (str "/")) = true := by rw [hpath]; exact hid
  have hm₂ : r₂.Method ≠ str "POST" := by rw [hget]; decide
  have hfile : (fs.write (Join savePath (TrimPrefix r₁.Path (str "/"))) b)
      (Join savePath (TrimPrefix r₁.Path (str "/"))) = some b := by simp [Store.write]
  have h2 := serveNotepad_read env₂ tpl
    (fs.write (Join savePath (TrimPrefix r₁.Path (str "/"))) b) r₂ hid₂ hm₂
  rw [(isRaw_iff r₂).2 hraw, hpath] at h2
  simp only [if_true, hfile, Option.isSome_some, Bool.or_true, ReadFile, hio₂,
    Bool.false_eq_true, if_false] at h2
  refine ⟨_, _, _, h1, postResponse_status r₁, hfile, ?_, h2, rfl, rfl, rfl⟩
  intro p hp
  simp [Store.write, hp]

theorem write_then_raw_read_witness :
    ∃ w₁ fs₁ w₂,
      serveNotepad (quietEnv []) sampleTemplate emptyStore
        (mkRequest "POST" "/abc" "" "" "Mozilla" "text=a%20b") = some (w₁, fs₁) ∧
      w₁.status = 200 ∧
      fs₁ (Join savePath (TrimPrefix (mkRequest "POST" "/abc" "" "" "Mozilla" "text=a%20b").Path
        (str "/"))) = some (str "text=a%20b") ∧
      (∀ p, p ≠ Join savePath (TrimPrefix (mkRequest "POST" "/abc" "" "" "Mozilla"
        "text=a%20b").Path (str "/")) → fs₁ p = emptyStore p) ∧
      serveNotepad (quietEnv []) sampleTemplate fs₁
        (mkRequest "GET" "/abc" "raw=1" "" "Mozilla" "") = some (w₂, fs₁) ∧
      w₂.status = 200 ∧
      w₂.get "Content-Type" = some (str "text/plain; charset=utf-8") ∧
      w₂.body = str "text=a%20b" :=
  write_then_raw_read (quietEnv []) (quietEnv []) sampleTemplate emptyStore
    (mkRequest "POST" "/abc" "" "" "Mozilla" "text=a%20b")
    (mkRequest "GET" "/abc" "raw=1" "" "Mozilla" "") (str "text=a%20b")
    (by decide) (by decide) rfl (by decide) (by decide) ⟨rfl, rfl⟩ (by decide) rfl
    (Or.inl (by decide)) rfl

/-- C4: for a valid identifier and any store (the note may or may not exist), a
`POST` whose decoded content is empty is answered 200 and removes the note: a
following raw-mode `GET` is answered 404 with an empty body, and a following
HTML-mode `GET` is answered 200 with the editor page, its text area empty.
`os.Remove` and `os.Stat` are taken not to fail for another reason than the
absence of the file. -/
theorem delete_then_read (env₁ env₂ env₃ : Env) (tpl : Template) (fs : Store)
    (r₁ r₂ r₃ : Request) (b : Str)
    (hid : validNoteID (TrimPrefix r₁.Path (str "/")) = true)
    (hpost : r₁.Method = str "POST") (hbody : r₁.Body = { data := b, fails := false })
    (hempty : postContent env₁ (drained r₁) b = [])
    (hio₁ : env₁.removeFails = false)
    (hget₂ : r₂.Method = str "GET") (hpath₂ : r₂.Path = r₁.Path) (hraw₂ : isRaw r₂ = true)
    (hio₂ : env₂.statFails = false)
    (hget₃ : r₃.Method = str "GET") (hpath₃ : r₃.Path = r₁.Path) (hraw₃ : isRaw r₃ = false) :
    ∃ w₁ fs₁ w₂ w₃,
      serveNotepad env₁ tpl fs r₁ = some (w₁, fs₁) ∧ w₁.status = 200 ∧
      fs₁ (Join savePath (TrimPrefix r₁.Path (str "/"))) = none ∧
      (∀ p, p ≠ Join savePath (TrimPrefix r₁.Path (str "/")) → fs₁ p = fs p) ∧
      serveNotepad env₂ tpl fs₁ r₂ = some (w₂, fs₁) ∧ w₂.status = 404 ∧ w₂.body = [] ∧
      serveNotepad env₃ tpl fs₁ r₃ = some (w₃, fs₁) ∧ w₃.status = 200 ∧
      w₃.get "Content-Type" = some (str "text/html; charset=utf-8") ∧
      w₃.body = Sprintf tpl (EscapeString (TrimPrefix r₁.Path (str "/")))
        (EscapeString (TrimPrefix r₁.Path (str "/"))) [] := by
  have h1 := serveNotepad_post env₁ tpl fs r₁ b hid hpost hbody
  rw [if_pos hempty, hio₁] at h1
  simp only [Bool.false_eq_true, if_false] at h1
  have hfile : (fs.remove (Join savePath (TrimPrefix r₁.Path (str "/"))))
      (Join savePath (TrimPrefix r₁.Path (str "/"))) = none := by simp [Store.remove]
  have hid₂ : validNoteID (TrimPrefix r₂.Path (str "/")) = true := by rw [hpath₂]; exact hid
  have hm₂ : r₂.Method ≠ str "POST" := by rw [hget₂]; decide
  have h2 := serveNotepad_read env₂ tpl
    (fs.remove (Join savePath (TrimPrefix r₁.Path (str "/")))) r₂ hid₂ hm₂
  rw [hraw₂, hpath₂] at h2
  simp only [if_true, hfile, hio₂, Option.isSome_none, Bool.or_false, Bool.false_eq_true,
    if_false] at h2
  have hid₃ : validNoteID (TrimPrefix r₃.Path (str "/")) = true := by rw [hpath₃]; exact hid
  have hm₃ : r₃.Method ≠ str "POST" := by rw [hget₃]; decide
  have h3 := serveNotepad_read env₃ tpl
    (fs.remove (Join savePath (TrimPrefix r₁.Path (str "/")))) r₃ hid₃ hm₃
  rw [hraw₃, hpath₃] at h3
  simp only [Bool.false_eq_true, if_false] at h3
  have hpage : pageContent env₃ (fs.remove (Join savePath (TrimPrefix r₁.Path (str "/"))))
      (Join savePath (TrimPrefix r₁.Path (str "/"))) = [] := by
    unfold pageContent ReadFile
    split <;> simp_all
  refine ⟨_, _, _, _, h1, postResponse_status r₁, hfile, ?_, h2, rfl, rfl, h3, rfl, ?_, ?_⟩
  · intro p hp
    simp [Store.remove, hp]
  · simp [Response.get, serveHTMLPage, List.lookup]
    decide
  · simp only [serveHTMLPage, hpage]
    rfl

theorem delete_then_read_witness :
    ∃ w₁ fs₁ w₂ w₃,
      serveNotepad (quietEnv []) sampleTemplate
        (emptyStore.write (str "_tmp/abc") (str "old"))
        (mkRequest "POST" "/abc" "" "application/x-www-form-urlencoded" "Mozilla" "text=")
          = some (w₁, fs₁) ∧
      w₁.status = 200 ∧
      fs₁ (Join savePath (TrimPrefix (mkRequest "POST" "/abc" "" "application/x-www-form-urlencoded"
        "Mozilla" "text=").Path (str "/"))) = none ∧
      (∀ p, p ≠ Join savePath (TrimPrefix (mkRequest "POST" "/abc" ""
        "application/x-www-form-urlencoded" "Mozilla" "text=").Path (str "/")) →
          fs₁ p = (emptyStore.write (str "_tmp/abc") (str "old")) p) ∧
      serveNotepad (quietEnv []) sampleTemplate fs₁
        (mkRequest "GET" "/abc" "" "" "curl/8.0" "") = some (w₂, fs₁) ∧
      w₂.status = 404 ∧ w₂.body = [] ∧
      serveNotepad (quietEnv []) sampleTemplate fs₁
        (mkRequest "GET" "/abc" "" "" "Mozilla" "") = some (w₃, fs₁) ∧
      w₃.status = 200 ∧
      w₃.get "Content-Type" = some (str "text/html; charset=utf-8") ∧
      w₃.body = Sprintf sampleTemplate
        (EscapeString (TrimPrefix (mkRequest "POST" "/abc" "" "application/x-www-form-urlencoded"
          "Mozilla" "text=").Path (str "/")))
        (EscapeString (TrimPrefix (mkRequest "POST" "/abc" "" "application/x-www-form-urlencoded"
          "Mozilla" "text=").Path (str "/"))) [] :=
  delete_then_read (quietEnv []) (quietEnv []) (quietEnv []) sampleTemplate
    (emptyStore.write (str "_tmp/abc") (str "old"))
    (mkRequest "POST" "/abc" "" "application/x-www-form-urlencoded" "Mozilla" "text=")
    (mkRequest "GET" "/abc" "" "" "curl/8.0" "") (mkRequest "GET" "/abc" "" "" "Mozilla" "")
    (str "text=") (by decide) (by decide) rfl (by decide) rfl (by decide) rfl (by decide) rfl
    (by decide) rfl (by decide)


/-! ### Escaping -/

theorem escapeString_append (a b : Str) :
    EscapeString (a ++ b) = EscapeString a ++ EscapeString b := by
  induction a with
  | nil => rfl
  | cons c a ih => simp [EscapeString, ih]

/-- The replacement for a byte: one of the five entities for one of the five
characters, the byte itself otherwise. -/
theorem escapeByte_cases (c : Nat) :
    (c = 38 ∧ escapeByte c = [38, 97, 109, 112, 59]) ∨
    (c = 39 ∧ escapeByte c = [38, 35, 51, 57, 59]) ∨
    (c = 60 ∧ escapeByte c = [38, 108, 116, 59]) ∨
    (c = 62 ∧ escapeByte c = [38, 103, 116, 59]) ∨
    (c = 34 ∧ escapeByte c = [38, 35, 51, 52, 59]) ∨
    ((c ≠ 38 ∧ c ≠ 39 ∧ c ≠ 60 ∧ c ≠ 62 ∧ c ≠ 34) ∧ escapeByte c = [c]) := by
  by_cases h1 : c = 38
  · subst h1; exact Or.inl ⟨rfl, rfl⟩
  by_cases h2 : c = 39
  · subst h2; exact Or.inr (Or.inl ⟨rfl, rfl⟩)
  by_cases h3 : c = 60
  · subst h3; exact Or.inr (Or.inr (Or.inl ⟨rfl, rfl⟩))
  by_cases h4 : c = 62
  · subst h4; exact Or.inr (Or.inr (Or.inr (Or.inl ⟨rfl, rfl⟩)))
  by_cases h5 : c = 34
  · subst h5; exact Or.inr (Or.inr (Or.inr (Or.inr (Or.inl ⟨rfl, rfl⟩))))
  refine Or.inr (Or.inr (Or.inr (Or.inr (Or.inr ⟨⟨h1, h2, h3, h4, h5⟩, ?_⟩))))
  have e1 : '&'.toNat = 38 := rfl
  have e2 : '\''.toNat = 39 := rfl
  have e3 : '<'.toNat = 60 := rfl
  have e4 : '>'.toNat = 62 := rfl
  have e5 : '"'.toNat = 34 := rfl
  simp only [escapeByte, e1, e2, e3, e4, e5, h1, h2, h3, h4, h5, if_false]

theorem escapeString_cons (c : Nat) (s : Str) :
    EscapeString (c :: s) = escapeByte c ++ EscapeString s := rfl

/-- The escaped text contains none of `<`, `>`, `"`, `'`. -/
theorem escapeString_no_special (v : Str) :
    ∀ c ∈ EscapeString v, c ≠ 60 ∧ c ≠ 62 ∧ c ≠ 34 ∧ c ≠ 39 := by
  induction v with
  | nil => intro c hc; simp [EscapeString] at hc
  | cons a v ih =>
    intro c hc
    rw [escapeString_cons, List.mem_append] at hc
    rcases hc with hc | hc
    · rcases escapeByte_cases a with ⟨_, h⟩ | ⟨_, h⟩ | ⟨_, h⟩ | ⟨_, h⟩ | ⟨_, h⟩ | ⟨hn, h⟩ <;>
        rw [h] at hc <;> simp only [List.mem_cons, List.mem_singleton, List.not_mem_nil,
          or_false] at hc <;> omega
    · exact ih c hc

theorem ampersandsBeginEntities_escapeString (v : Str) :
    ampersandsBeginEntities (EscapeString v) = true := by
  have hent : entities = [[38, 97, 109, 112, 59], [38, 35, 51, 57, 59], [38, 108, 116, 59],
      [38, 103, 116, 59], [38, 35, 51, 52, 59]] := rfl
  have e1 : '&'.toNat = 38 := rfl
  induction v with
  | nil => rfl
  | cons a v ih =>
    rw [escapeString_cons]
    rcases escapeByte_cases a with ⟨_, h⟩ | ⟨_, h⟩ | ⟨_, h⟩ | ⟨_, h⟩ | ⟨_, h⟩ | ⟨hn, h⟩ <;>
      rw [h] <;>
      simp [ampersandsBeginEntities, hent, e1, ih, List.isPrefixOf]
    exact Or.inl hn.1

theorem ampersandsBeginEntities_sound (l : Str) (h : ampersandsBeginEntities l = true)
    (u t : Str) (hl : l = u ++ 38 :: t) : ∃ e ∈ entities, e <+: 38 :: t := by
  induction u generalizing l with
  | nil =>
    subst hl
    have e1 : '&'.toNat = 38 := rfl
    simp only [ampersandsBeginEntities, e1, bne_self_eq_false, Bool.false_or, Bool.and_eq_true,
      List.any_eq_true, List.nil_append] at h
    obtain ⟨⟨e, he, hp⟩, _⟩ := h
    exact ⟨e, he, List.isPrefixOf_iff_prefix.1 hp⟩
  | cons a u ih =>
    subst hl
    simp only [List.cons_append, ampersandsBeginEntities, Bool.and_eq_true] at h
    exact ih _ h.2 rfl

theorem unescape_escapeString (v : Str) : UnescapeString (EscapeString v) = v := by
  induction v with
  | nil => rfl
  | cons a v ih =>
    rw [escapeString_cons]
    rcases escapeByte_cases a with ⟨ha, h⟩ | ⟨ha, h⟩ | ⟨ha, h⟩ | ⟨ha, h⟩ | ⟨ha, h⟩ | ⟨hn, h⟩
    · rw [h, ha]; simp only [List.cons_append, List.nil_append]; rw [UnescapeString, ih]
    · rw [h, ha]; simp only [List.cons_append, List.nil_append]; rw [UnescapeString, ih]
    · rw [h, ha]; simp only [List.cons_append, List.nil_append]; rw [UnescapeString, ih]
    · rw [h, ha]; simp only [List.cons_append, List.nil_append]; rw [UnescapeString, ih]
    · rw [h, ha]; simp only [List.cons_append, List.nil_append]; rw [UnescapeString, ih]
    · rw [h]
      simp only [List.cons_append, List.nil_append]
      rw [UnescapeString.eq_6, ih] <;> intro _ hc <;> exact absurd hc hn.1

/-- The single pass copies a text without `%`. -/
theorem singlePass_append_of_no_percent (x y : Str) (hx : 37 ∉ x) :
    singlePass (x ++ y) = x ++ singlePass y := by
  induction x with
  | nil => rfl
  | cons c x ih =>
    have hc : c ≠ 37 := fun h => hx (by simp [h])
    have hx' : 37 ∉ x := fun h => hx (by simp [h])
    rw [List.cons_append, singlePass.eq_5, ih hx', List.cons_append] <;>
      intro _ h <;> exact absurd h hc

/-- The single pass works on the text before a `<` without looking at the `<`. -/
theorem singlePass_append_lt (x y : Str) :
    singlePass (x ++ 60 :: y) = singlePass x ++ singlePass (60 :: y) := by
  induction x using singlePass.induct with
  | case1 rest ih => simp only [List.cons_append]; rw [singlePass, singlePass, ih]; rfl
  | case2 rest ih => simp only [List.cons_append]; rw [singlePass, singlePass, ih]; rfl
  | case3 rest ih => simp only [List.cons_append]; rw [singlePass, singlePass, ih]; rfl
  | case4 rest ih => simp only [List.cons_append]; rw [singlePass, singlePass, ih]; rfl
  | case5 c rest h1 h2 h3 h4 ih =>
    have key : ∀ a b : Nat, a ≠ 60 → b ≠ 60 → (∀ u : List Nat, rest = a :: b :: u → False) →
        ∀ u : List Nat, rest ++ 60 :: y = a :: b :: u → False := by
      intro a b ha hb h u hu
      rcases rest with _ | ⟨p, _ | ⟨q, rest⟩⟩
      · simp only [List.nil_append, List.cons.injEq] at hu
        exact ha hu.1.symm
      · simp only [List.cons_append, List.nil_append, List.cons.injEq] at hu
        exact hb hu.2.1.symm
      · simp only [List.cons_append, List.cons.injEq] at hu
        exact h rest (by rw [hu.1, hu.2.1])
    rw [List.cons_append, singlePass.eq_5 c rest h1 h2 h3 h4, singlePass.eq_5, ih,
      List.cons_append]
    · intro u hc; exact key 48 65 (by decide) (by decide) (fun u => h1 u hc) u
    · intro u hc; exact key 48 68 (by decide) (by decide) (fun u => h2 u hc) u
    · intro u hc; exact key 48 57 (by decide) (by decide) (fun u => h3 u hc) u
    · intro u hc; exact key 50 48 (by decide) (by decide) (fun u => h4 u hc) u
  | case6 => rfl

/-- The cleanup of stored data leaves a script element in it as it is. -/
theorem cleanupFormData_script (pre post : Str) :
    ∃ pre' post', cleanupFormData (pre ++ script ++ post) = pre' ++ script ++ post' := by
  have hs : script = 60 :: str "script>alert(1)</script>" := rfl
  have hno : (37 : Nat) ∉ script := by decide
  have main : ∀ p : Str, singlePass (p ++ script ++ post) =
      singlePass p ++ script ++ singlePass post := by
    intro p
    rw [List.append_assoc, hs, List.cons_append, singlePass_append_lt, ← List.cons_append, ← hs,
      singlePass_append_of_no_percent _ _ hno, List.append_assoc]
  rw [cleanupFormData_eq_cleanupSpec, cleanupSpec]
  by_cases h : str "text=" <+: pre ++ script ++ post
  · rw [if_pos h]
    have hlen : 5 ≤ pre.length := by
      rw [List.append_assoc] at h
      obtain ⟨t, ht⟩ := h
      rcases pre with _ | ⟨a, _ | ⟨b, _ | ⟨c, _ | ⟨d, _ | ⟨e, pre⟩⟩⟩⟩⟩
      · exact absurd ht (by simp [str, hs])
      · exact absurd ht (by simp [str, hs])
      · exact absurd ht (by simp [str, hs])
      · exact absurd ht (by simp [str, hs])
      · exact absurd ht (by simp [str, hs])
      · simp
    rw [List.append_assoc, List.drop_append_of_le_length hlen, ← List.append_assoc]
    exact ⟨_, _, main _⟩
  · rw [if_neg h]
    exact ⟨_, _, main _⟩

theorem not_script_infix_escapeString (v : Str) : ¬ script <:+: EscapeString v := by
  intro h
  have h60 : (60 : Nat) ∈ script := by decide
  exact (escapeString_no_special v 60 (h.subset h60)).1 rfl

set_option maxRecDepth 20000 in
theorem samplePage_body :
    (serveHTMLPage (quietEnv []) sampleTemplate
        (emptyStore.write (str "_tmp/abc") (str "a%20<script>alert(1)</script>&"))
        (str "abc") (str "_tmp/abc")).body =
      sampleTemplate.beforeTitle ++ str "abc" ++ sampleTemplate.beforeLabel ++ str "abc" ++
        sampleTemplate.beforeText ++ str "a &lt;script&gt;alert(1)&lt;/script&gt;&amp;" ++
        sampleTemplate.afterText := by
  decide

/-- C5: the page that `serveHTMLPage` writes has, at its three insertion points
(title, header label, text area), the escaped identifier, the escaped
identifier and the escaped content.  The escaped form of any value contains
none of `<`, `>`, `"`, `'`, every `&` in it begins one of the five entities,
and unescaping gives the value back.  So a script element in the content is in
the page as `&lt;script&gt;alert(1)&lt;/script&gt;` and the inserted text never
contains it raw; the cleanup of stored data does not take it away either. -/
theorem serveHTMLPage_escapes :
    (∀ (env : Env) (tpl : Template) (fs : Store) (noteID filePath : Str),
      (serveHTMLPage env tpl fs noteID filePath).body =
        Sprintf tpl (EscapeString noteID) (EscapeString noteID)
          (EscapeString (pageContent env fs filePath))) ∧
    (∀ v : Str,
      (∀ c ∈ EscapeString v,
        c ≠ '<'.toNat ∧ c ≠ '>'.toNat ∧ c ≠ '"'.toNat ∧ c ≠ '\''.toNat) ∧
      (∀ u t : Str, EscapeString v = u ++ '&'.toNat :: t →
        ∃ e ∈ entities, e <+: '&'.toNat :: t) ∧
      UnescapeString (EscapeString v) = v ∧
      ¬ script <:+: EscapeString v) ∧
    (∀ pre post : Str, EscapeString (pre ++ script ++ post) =
      EscapeString pre ++ escapedScript ++ EscapeString post) ∧
    (∀ pre post : Str, ∃ pre' post',
      cleanupFormData (pre ++ script ++ post) = pre' ++ script ++ post') ∧
    (serveHTMLPage (quietEnv []) sampleTemplate
        (emptyStore.write (str "_tmp/abc") (str "a%20<script>alert(1)</script>&"))
        (str "abc") (str "_tmp/abc")).body =
      sampleTemplate.beforeTitle ++ str "abc" ++ sampleTemplate.beforeLabel ++ str "abc" ++
        sampleTemplate.beforeText ++ str "a &lt;script&gt;alert(1)&lt;/script&gt;&amp;" ++
        sampleTemplate.afterText := by
  refine ⟨fun _ _ _ _ _ => rfl, fun v => ⟨escapeString_no_special v, ?_, unescape_escapeString v,
    not_script_infix_escapeString v⟩, ?_, cleanupFormData_script, samplePage_body⟩
  · intro u t h
    exact ampersandsBeginEntities_sound _ (ampersandsBeginEntities_escapeString v) u t h
  · intro pre post
    rw [escapeString_append, escapeString_append]
    rfl


/-! ### Form-encoded writes -/

theorem storedAfter_some (w : Response) (fs : Store) (name : Str) :
    storedAfter (some (w, fs)) name = some (fs name) := rfl

set_option maxRecDepth 20000 in
/-- C6 (as stated, refuted): a `POST` to the valid identifier `abc` with content
type `application/x-www-form-urlencoded`, body `text=hello%20world` and the
URL query `%zz`: `hello%20world` has no `&` or `;` and decodes to the non-empty
`hello world`, but `ParseForm` reports the malformed query, and the handler
stores the raw body `text=hello%20world`, not `hello world`. -/
theorem form_post_malformed_query_stores_raw_body :
    validNoteID (TrimPrefix (mkRequest "POST" "/abc" "%zz" "application/x-www-form-urlencoded"
      "Mozilla" "text=hello%20world").Path (str "/")) = true ∧
    (mkRequest "POST" "/abc" "%zz" "application/x-www-form-urlencoded" "Mozilla"
      "text=hello%20world").ContentType = str "application/x-www-form-urlencoded" ∧
    (mkRequest "POST" "/abc" "%zz" "application/x-www-form-urlencoded" "Mozilla"
      "text=hello%20world").Body.data = str "text=" ++ str "hello%20world" ∧
    '&'.toNat ∉ str "hello%20world" ∧ ';'.toNat ∉ str "hello%20world" ∧
    QueryUnescape (str "hello%20world") = some (str "hello world") ∧
    str "hello world" ≠ [] ∧
    storedAfter (serveNotepad (quietEnv []) sampleTemplate emptyStore
      (mkRequest "POST" "/abc" "%zz" "application/x-www-form-urlencoded" "Mozilla"
        "text=hello%20world")) (str "_tmp/abc") = some (some (str "text=hello%20world")) ∧
    storedAfter (serveNotepad (quietEnv []) sampleTemplate emptyStore
      (mkRequest "POST" "/abc" "%zz" "application/x-www-form-urlencoded" "Mozilla"
        "text=hello%20world")) (str "_tmp/abc") ≠ some (some (str "hello world")) := by
  decide

/-- C6 (amended): for a `POST` to a valid identifier with content type
`application/x-www-form-urlencoded` and body `text=` followed by a string `e`
without `&` or `;`, for which `ParseForm` reports no error (the URL query
parses and the media type parser accepts the header): when `e` decodes to a
non-empty `s`, the stored content is `s`, not the encoded body.  When `e` does
not decode, the stored content is the raw body with its `text=`.  The file
operations are taken to succeed. -/
theorem form_post_decodes (env : Env) (tpl : Template) (fs : Store) (r : Request) (e : Str)
    (hid : validNoteID (TrimPrefix r.Path (str "/")) = true)
    (hpost : r.Method = str "POST")
    (hct : r.ContentType = str "application/x-www-form-urlencoded")
    (hbody : r.Body = { data := str "text=" ++ e, fails := false })
    (_hamp : '&'.toNat ∉ e) (_hsemi : ';'.toNat ∉ e)
    (hio : env.mkdirAllFails = false ∧ env.writeFileFails = false) :
    (∀ s, QueryUnescape e = some s → s ≠ [] →
      (env.ParseMediaType (str "application/x-www-form-urlencoded")).2 = false →
      (ParseQuery r.RawQuery).2 = false →
      ∃ w, serveNotepad env tpl fs r =
        some (w, fs.write (Join savePath (TrimPrefix r.Path (str "/"))) s) ∧ w.status = 200) ∧
    (QueryUnescape e = none →
      ∃ w, serveNotepad env tpl fs r =
        some (w, fs.write (Join savePath (TrimPrefix r.Path (str "/"))) (str "text=" ++ e)) ∧
        w.status = 200) := by
  have hfails : r.Body.fails = false := by rw [hbody]
  have hc : Contains r.ContentType formUrlencoded = true := by rw [hct]; decide
  have hne : r.ContentType ≠ [] := by rw [hct]; decide
  have herr := parseForm_drained_err env r hfails
  rw [if_neg hne, hct] at herr
  have hpre : HasPrefix (str "text=" ++ e) (str "text=") = true := by
    rw [hasPrefix_iff]; exact List.prefix_append _ _
  have hdrop : (str "text=" ++ e).drop 5 = e := by
    simp [str]
  have hcontent := postContent_form env r (str "text=" ++ e) hc hfails
  rw [herr, hpre, hdrop] at hcontent
  have h1 := serveNotepad_post env tpl fs r _ hid hpost hbody
  rw [hio.1, hio.2] at h1
  simp only [Bool.false_eq_true, if_false] at h1
  constructor
  · intro s hs hsne hmt hq
    rw [hmt, hq, hs] at hcontent
    simp only [Bool.or_self, if_true] at hcontent
    rw [hcontent, if_neg hsne] at h1
    exact ⟨_, h1, postResponse_status r⟩
  · intro h
    have hraw : postContent env (drained r) (str "text=" ++ e) = str "text=" ++ e := by
      rw [hcontent, h]
      simp
    have hne' : str "text=" ++ e ≠ [] := by simp [str]
    rw [hraw, if_neg hne'] at h1
    exact ⟨_, h1, postResponse_status r⟩

theorem form_post_decodes_witness :
    (∃ w, serveNotepad (quietEnv []) sampleTemplate emptyStore
        (mkRequest "POST" "/abc" "" "application/x-www-form-urlencoded" "Mozilla"
          "text=hello%20world") =
        some (w, emptyStore.write (Join savePath (TrimPrefix (mkRequest "POST" "/abc" ""
          "application/x-www-form-urlencoded" "Mozilla" "text=hello%20world").Path (str "/")))
          (str "hello world")) ∧ w.status = 200) ∧
    (∃ w, serveNotepad (quietEnv []) sampleTemplate emptyStore
        (mkRequest "POST" "/abc" "" "application/x-www-form-urlencoded" "Mozilla"
          "text=100%") =
        some (w, emptyStore.write (Join savePath (TrimPrefix (mkRequest "POST" "/abc" ""
          "application/x-www-form-urlencoded" "Mozilla" "text=100%").Path (str "/")))
          (str "text=" ++ str "100%")) ∧ w.status = 200) :=
  ⟨(form_post_decodes (quietEnv []) sampleTemplate emptyStore
      (mkRequest "POST" "/abc" "" "application/x-www-form-urlencoded" "Mozilla"
        "text=hello%20world") (str "hello%20world")
      (by decide) (by decide) rfl rfl (by decide) (by decide) ⟨rfl, rfl⟩).1 (str "hello world")
      (by decide) (by decide) rfl (by decide),
   (form_post_decodes (quietEnv []) sampleTemplate emptyStore
      (mkRequest "POST" "/abc" "" "application/x-www-form-urlencoded" "Mozilla"
        "text=100%") (str "100%")
      (by decide) (by decide) rfl rfl (by decide) (by decide) ⟨rfl, rfl⟩).2 (by decide)⟩

set_option maxRecDepth 20000 in
/-- C7 (the code at the failing inputs): parsed as form fields, the bodies
`text=a&x=b` and `x=b&text=a` both have the field `text` with value `a`; but
after `io.ReadAll` the body holds no field for `ParseForm`, so the value of
`text` that the handler sees is always empty, and for the two bodies it stores
`a&x=b` and `x=b&text=a`, not `a`. -/
theorem form_field_text_is_not_used :
    (∀ (env : Env) (r : Request), r.Body.fails = false →
      (ParseForm env (drained r)).1.Get (str "text") = []) ∧
    (ParseQuery (str "text=a&x=b")).1.Get (str "text") = str "a" ∧
    (ParseQuery (str "x=b&text=a")).1.Get (str "text") = str "a" ∧
    storedAfter (serveNotepad (quietEnv []) sampleTemplate emptyStore
      (mkRequest "POST" "/abc" "" "application/x-www-form-urlencoded" "Mozilla" "text=a&x=b"))
      (str "_tmp/abc") = some (some (str "a&x=b")) ∧
    storedAfter (serveNotepad (quietEnv []) sampleTemplate emptyStore
      (mkRequest "POST" "/abc" "" "application/x-www-form-urlencoded" "Mozilla" "x=b&text=a"))
      (str "_tmp/abc") = some (some (str "x=b&text=a")) := by
  refine ⟨fun env r h => ?_, by decide, by decide, by decide, by decide⟩
  rw [parseForm_drained env r h]
  rfl

end NetClipboard
